import Mathlib

set_option maxHeartbeats 1000000

/-!
Shallow embedding of `src/laxar-log-activity.js` (LaxarJS log activity).

The widget collects log records arriving on a global log channel
(`handleLogItem`), merges near-duplicates against the last two buffered
entries (`markDuplicate`), flushes the buffer when a message-count
threshold is reached or a submit timer fires (`submit`), and keeps a
resend buffer with a bounded retry budget (`resendMessages`).

Timers are modelled as `Option Nat` holding the absolute fire time;
`window.clearTimeout` corresponds to replacing / clearing the option.
Network outcomes are modelled by an oracle `outcome : Request → Bool`
(`true` = the POST promise resolves, `false` = it rejects).  The message
formatter of the `laxar` library is abstracted by a token list; a throw
inside the library formatter surfaces as `Except.error`, while the
`anonymize` mapper installed by `createMessageFormatter` (which is code
of this file of the repository) is embedded literally.
-/

/-- A fragment of a log-message template: literal text, a positional
replacement rendered by an ordinary formatter, or a replacement routed
through the `anonymize` mapper of `createMessageFormatter`. -/
inductive FmtToken where
  | lit (s : String)
  | subst (i : Nat)
  | anon (i : Nat)
deriving DecidableEq

/-- The stable placeholder rendered by the anonymize mapper:
`[index:anonymize]` (source line 254). -/
def anonPlaceholder (i : Nat) : String :=
  "[" ++ toString i ++ ":anonymize]"

/-- Result of `formatMessage`: the rendered text plus the side list of
anonymized values (source lines 249-262). -/
structure FormatResult where
  text : String
  replacements : List String
deriving DecidableEq

/-- Left-to-right rendering of the template, threading the side list
`acc` of anonymized values collected so far.  An out-of-range
replacement index models a formatting failure thrown by the library
formatter. -/
def runFormat : List FmtToken → List String → List String →
    Except Unit (String × List String)
  | [], _, acc => Except.ok ("", acc)
  | FmtToken.lit s :: rest, repl, acc =>
    match runFormat rest repl acc with
    | Except.ok (t, a) => Except.ok (s ++ t, a)
    | Except.error e => Except.error e
  | FmtToken.subst i :: rest, repl, acc =>
    match repl.get? i with
    | none => Except.error ()
    | some v =>
      match runFormat rest repl acc with
      | Except.ok (t, a) => Except.ok (v ++ t, a)
      | Except.error e => Except.error e
  | FmtToken.anon i :: rest, repl, acc =>
    match repl.get? i with
    | none => Except.error ()
    | some v =>
      match runFormat rest repl (acc ++ [v]) with
      | Except.ok (t, a) => Except.ok (anonPlaceholder acc.length ++ t, a)
      | Except.error e => Except.error e

/-- `formatMessage( text, replacements )` (source lines 17, 246-263). -/
def formatMessage (text : List FmtToken) (repl : List String) :
    Except Unit FormatResult :=
  match runFormat text repl [] with
  | Except.ok (t, a) => Except.ok ⟨t, a⟩
  | Except.error e => Except.error e

/-- A buffered message item as built in `handleLogItem`
(source lines 110-119). -/
structure MessageItem where
  file : String
  line : Nat
  level : String
  repetitions : Nat
  replacements : List String
  tags : List String
  text : String
  time : String
deriving DecidableEq

/-- An incoming record of the upstream log channel. `time` is already
the ISO-8601 rendering of `item.time`. -/
structure LogItem where
  id : Int
  time : String
  level : String
  file : String
  line : Nat
  tags : List (String × String)
  text : List FmtToken
  replacements : List String
deriving DecidableEq

/-- A delivery request: `BATCH` policy wraps all buffered messages into
one object with a `source`, any other policy spreads one message at the
top level next to `source` (source lines 162-164). -/
inductive Request where
  | batch (messages : List MessageItem) (source : String)
  | single (message : MessageItem) (source : String)
deriving DecidableEq

/-- An entry of `resendBuffer` (source line 174). -/
structure PendingSubmission where
  payload : Request
  retriesLeft : Nat
deriving DecidableEq

/-- The mutable module state of the widget: `lastMessageId`, `buffer`,
`resendBuffer`, the two timers, the scheduled submit deadline, plus
whether the log channel and the beforeunload listener are attached. -/
structure EngineState where
  lastMessageId : Int
  buffer : List MessageItem
  resendBuffer : List PendingSubmission
  retryTimeout : Option Nat
  retryMilliseconds : Option Nat
  nextSubmit : Option Nat
  timeout : Option Nat
  channelAttached : Bool
  beforeUnloadAttached : Bool
deriving DecidableEq

/-- The configuration read from the features (source lines 34-48, 160). -/
structure Config where
  thresholdMessages : Nat
  thresholdSeconds : Nat
  retryEnabled : Bool
  retrySeconds : Nat
  retryRetries : Nat
  requestPolicy : String
  source : String
  instanceId : String
deriving DecidableEq

/-- `const ms = s => 1000 * s` (source line 48). -/
def msOf (s : Nat) : Nat := 1000 * s

/-- Tag list construction of `handleLogItem` (source lines 103-107):
`INST` first (falling back to the instance id when absent or falsy),
then the remaining tags as `name:value`. -/
def mkTags (instanceId : String) (tags : List (String × String)) :
    List String :=
  let inst :=
    match tags.lookup "INST" with
    | some v => if v = "" then instanceId else v
    | none => instanceId
  ("INST:" ++ inst) ::
    (tags.filter (fun t => t.1 ≠ "INST")).map (fun t => t.1 ++ ":" ++ t.2)

/-- The `messageItem` object built in `handleLogItem`
(source lines 110-119). -/
def mkMessageItem (cfg : Config) (item : LogItem) (fr : FormatResult) :
    MessageItem :=
  { file := item.file
    line := item.line
    level := item.level
    repetitions := 1
    replacements := fr.replacements
    tags := mkTags cfg.instanceId item.tags
    text := fr.text
    time := item.time }

/-- The field-by-field comparison (line, file, level, text) used by
`markDuplicate` (source line 137). -/
def isDuplicateOf (item prev : MessageItem) : Bool :=
  item.line == prev.line && item.file == prev.file &&
    item.level == prev.level && item.text == prev.text

/-- `++previousItem.repetitions` at position `i` of the buffer
(source line 138). -/
def incRepetitionsAt : List MessageItem → Nat → List MessageItem
  | [], _ => []
  | m :: ms, 0 => { m with repetitions := m.repetitions + 1 } :: ms
  | m :: ms, Nat.succ i => m :: incRepetitionsAt ms i

/-- `markDuplicate` (source lines 132-143): walk the buffer from the
back, inspecting at most the last 2 entries; on a match increment that
entry and report a merge (`some` of the updated buffer), otherwise
report no merge (`none`). -/
def markDuplicate (item : MessageItem) (buffer : List MessageItem) :
    Option (List MessageItem) :=
  match buffer.get? (buffer.length - 1) with
  | none => none
  | some lastm =>
    if isDuplicateOf item lastm then
      some (incRepetitionsAt buffer (buffer.length - 1))
    else if 2 ≤ buffer.length then
      match buffer.get? (buffer.length - 2) with
      | none => none
      | some prevm =>
        if isDuplicateOf item prevm then
          some (incRepetitionsAt buffer (buffer.length - 2))
        else none
    else none

/-- `scheduleNextSubmit` (source lines 224-233): with a deadline already
set, only re-arm the timer for the existing deadline; otherwise arm the
timer for a full interval and establish the deadline. -/
def scheduleNextSubmit (cfg : Config) (dateNow : Nat) (s : EngineState) :
    EngineState :=
  match s.nextSubmit with
  | some ns => { s with timeout := some ns }
  | none =>
    { s with
        timeout := some (dateNow + msOf cfg.thresholdSeconds)
        nextSubmit := some (dateNow + msOf cfg.thresholdSeconds) }

/-- `scheduleNextResend` (source lines 237-241). -/
def scheduleNextResend (cfg : Config) (dateNow : Nat) (s : EngineState) :
    EngineState :=
  { s with
      retryMilliseconds := some (msOf cfg.retrySeconds)
      retryTimeout := some (dateNow + msOf cfg.retrySeconds) }

/-- The repetition suffix applied on flush (source lines 156-158):
messages with more than one repetition get `" (repeated Nx)"` appended
to their text. -/
def addRepeatSuffix (m : MessageItem) : MessageItem :=
  if 1 < m.repetitions then
    { m with
        text := m.text ++ " (repeated " ++ toString m.repetitions ++ "x)" }
  else m

/-- The chunking of the buffer into requests (source lines 162-164). -/
def buildChunks (cfg : Config) (buffer : List MessageItem) : List Request :=
  if cfg.requestPolicy = "BATCH" then [Request.batch buffer cfg.source]
  else buffer.map (fun m => Request.single m cfg.source)

/-- Result of one `submit` call: the new state and the requests that
were posted. -/
structure SubmitResult where
  state : EngineState
  requests : List Request
deriving DecidableEq

/-- `submit( synchronously )` (source lines 148-179): reset the
deadline and reschedule, bail out on an empty buffer, suffix repeated
messages, build the chunks, post each chunk, clear the buffer; a failed
asynchronous post with retry enabled enqueues the payload with the full
retry budget and arms the resend timer. -/
def submit (cfg : Config) (now : Nat) (synchronously : Bool)
    (outcome : Request → Bool) (s : EngineState) : SubmitResult :=
  let s1 := scheduleNextSubmit cfg now { s with nextSubmit := none }
  if s1.buffer.length = 0 then ⟨s1, []⟩
  else
    let suffixed := s1.buffer.map addRepeatSuffix
    let chunks := buildChunks cfg suffixed
    let failed := chunks.filter (fun r => !outcome r)
    let enqueue := cfg.retryEnabled && !synchronously
    let newResend :=
      if enqueue then
        s1.resendBuffer ++ failed.map (fun r => ⟨r, cfg.retryRetries⟩)
      else s1.resendBuffer
    let s2 := { s1 with buffer := [], resendBuffer := newResend }
    let s3 :=
      if enqueue && !failed.isEmpty then scheduleNextResend cfg now s2
      else s2
    ⟨s3, chunks⟩

/-- Result of one `handleLogItem` call: the new state, the requests
posted by a triggered flush, whether a flush was triggered, and whether
the call threw (a formatting failure is not caught by the source). -/
structure StepResult where
  state : EngineState
  requests : List Request
  flushed : Bool
  threw : Bool
deriving DecidableEq

/-- `handleLogItem` (source lines 99-128): drop stale ids, advance
`lastMessageId`, format (an uncaught formatting failure propagates with
`lastMessageId` already advanced), merge duplicates, otherwise append
and flush once the count threshold is reached. -/
def handleLogItem (cfg : Config) (now : Nat) (outcome : Request → Bool)
    (item : LogItem) (s : EngineState) : StepResult :=
  if item.id ≤ s.lastMessageId then ⟨s, [], false, false⟩
  else
    let s1 := { s with lastMessageId := item.id }
    match formatMessage item.text item.replacements with
    | Except.error _ => ⟨s1, [], false, true⟩
    | Except.ok fr =>
      let messageItem := mkMessageItem cfg item fr
      match markDuplicate messageItem s1.buffer with
      | some newBuffer => ⟨{ s1 with buffer := newBuffer }, [], false, false⟩
      | none =>
        let s2 := { s1 with buffer := s1.buffer ++ [messageItem] }
        if cfg.thresholdMessages ≤ s2.buffer.length then
          let r := submit cfg now false outcome s2
          ⟨r.state, r.requests, true, false⟩
        else ⟨s2, [], false, false⟩

/-- A record emitted by the global log channel reaches `handleLogItem`
only while the channel is attached (source lines 60, 73). -/
def deliverLogItem (cfg : Config) (now : Nat) (outcome : Request → Bool)
    (item : LogItem) (s : EngineState) : StepResult :=
  if s.channelAttached then handleLogItem cfg now outcome item s
  else ⟨s, [], false, false⟩

/-- Aggregate result of ingesting a list of records. -/
structure RunResult where
  state : EngineState
  flushes : Nat
  requests : List Request
  threwCount : Nat
deriving DecidableEq

/-- Ingest a list of records one after the other (each through
`handleLogItem`); a throw leaves the mutated module state behind and
later records are still delivered. -/
def ingestList (cfg : Config) (now : Nat) (outcome : Request → Bool) :
    List LogItem → EngineState → RunResult
  | [], s => ⟨s, 0, [], 0⟩
  | item :: rest, s =>
    let r := handleLogItem cfg now outcome item s
    let rr := ingestList cfg now outcome rest r.state
    ⟨rr.state, (if r.flushed then 1 else 0) + rr.flushes,
      r.requests ++ rr.requests,
      (if r.threw then 1 else 0) + rr.threwCount⟩

/-- Effect of one resend pass on a single surviving entry
(source lines 190-195): decrement `retriesLeft`, then a successful post
sets it to 0. -/
def resendStep (outcome : Request → Bool) (it : PendingSubmission) :
    PendingSubmission :=
  if outcome it.payload then { it with retriesLeft := 0 }
  else { it with retriesLeft := it.retriesLeft - 1 }

/-- One fire of the retry timer, at the level of the resend buffer
(source lines 183-197): evict entries whose budget is exhausted, then
attempt every survivor.  Returns the new buffer and the list of
attempted payloads. -/
def resendTick (outcome : Request → Bool) (rb : List PendingSubmission) :
    List PendingSubmission × List Request :=
  let kept := rb.filter (fun it => 0 < it.retriesLeft)
  (kept.map (resendStep outcome), kept.map (fun it => it.payload))

/-- Iterate `resendTick`, accumulating the attempted payloads in order. -/
def resendTicks (outcome : Request → Bool) :
    Nat → List PendingSubmission → List PendingSubmission × List Request
  | 0, rb => (rb, [])
  | Nat.succ k, rb =>
    let t := resendTick outcome rb
    let rest := resendTicks outcome k t.1
    (rest.1, t.2 ++ rest.2)

/-- `resendMessages` on the full engine state (source lines 183-197):
clear the retry timer, evict exhausted entries, re-arm the timer only
when survivors remain, then attempt every survivor. -/
def resendMessages (now : Nat) (outcome : Request → Bool)
    (s : EngineState) : EngineState :=
  let kept := s.resendBuffer.filter (fun it => 0 < it.retriesLeft)
  let newRetryTimeout :=
    if 0 < kept.length then some (now + s.retryMilliseconds.getD 0)
    else none
  { s with
      resendBuffer := kept.map (resendStep outcome)
      retryTimeout := newRetryTimeout }

/-- `handleBeforeUnload` (source lines 88-93): synchronous flush, then
clear both timers.  The log channel stays attached. -/
def handleBeforeUnload (cfg : Config) (now : Nat)
    (outcome : Request → Bool) (s : EngineState) :
    EngineState × List Request :=
  ({ (submit cfg now true outcome s).state with
      timeout := none
      retryTimeout := none },
    (submit cfg now true outcome s).requests)

/-- The `endLifecycleRequest` subscription (source lines 72-77): detach
the log channel, clear both timers, remove the beforeunload listener.
No flush is performed. -/
def handleEndLifecycle (s : EngineState) : EngineState :=
  { s with
      channelAttached := false
      timeout := none
      retryTimeout := none
      beforeUnloadAttached := false }

/-- The duplicate key of a buffered message: the four fields compared by
`markDuplicate`. -/
def dupKey (m : MessageItem) : Nat × String × String × String :=
  (m.line, m.file, m.level, m.text)

/-- Whether formatting an incoming record succeeds. -/
def fmtOk (item : LogItem) : Bool :=
  match formatMessage item.text item.replacements with
  | Except.ok _ => true
  | Except.error _ => false

/-- All records of a list format successfully. -/
def formatsOk (items : List LogItem) : Bool := items.all fmtOk

/-- The message a record turns into when buffered (meaningful when
`fmtOk` holds). -/
def toMsg (cfg : Config) (item : LogItem) : MessageItem :=
  match formatMessage item.text item.replacements with
  | Except.ok fr => mkMessageItem cfg item fr
  | Except.error _ => mkMessageItem cfg item ⟨"", []⟩

/-- The duplicate key a record turns into (meaningful when `fmtOk`
holds). -/
def keyOf (cfg : Config) (item : LogItem) : Nat × String × String × String :=
  match formatMessage item.text item.replacements with
  | Except.ok fr => dupKey (mkMessageItem cfg item fr)
  | Except.error _ => (0, "", "", "")

/-- `k` is different from every key of the list. -/
def keyNotIn (k : Nat × String × String × String) :
    List (Nat × String × String × String) → Bool
  | [] => true
  | k2 :: ks => if k = k2 then false else keyNotIn k ks

/-- All keys of the list are pairwise different. -/
def keysDistinct : List (Nat × String × String × String) → Bool
  | [] => true
  | k :: ks => keyNotIn k ks && keysDistinct ks

/-- Ids are strictly increasing and start above the given last id. -/
def idsFresh : Int → List LogItem → Bool
  | _, [] => true
  | lastId, item :: rest => (lastId < item.id : Bool) && idsFresh item.id rest

/-- The last id of the list (or the given one when empty). -/
def lastIdOf : Int → List LogItem → Int
  | i, [] => i
  | _, item :: rest => lastIdOf item.id rest

/-- The anonymized values a template extracts, in occurrence order. -/
def anonValues (tokens : List FmtToken) (repl : List String) : List String :=
  tokens.filterMap (fun t =>
    match t with
    | FmtToken.anon i => repl.get? i
    | _ => none)

/-- Modelled from the spec (section 4.5 / the anonymization formatter):
the expected rendering, where the k-th anonymize occurrence (counting
from `k0`) contributes exactly the placeholder of its index in the side
list and every other token renders its own text. -/
def textSpec : List FmtToken → List String → Nat → String
  | [], _, _ => ""
  | FmtToken.lit s :: rest, repl, k => s ++ textSpec rest repl k
  | FmtToken.subst i :: rest, repl, k =>
    (repl.get? i).getD "" ++ textSpec rest repl k
  | FmtToken.anon _ :: rest, repl, k =>
    anonPlaceholder k ++ textSpec rest repl (k + 1)

/-! Concrete fixtures used for instantiations. -/

/-- An always-succeeding network. -/
def wOutcomeOk : Request → Bool := fun _ => true

/-- An always-failing network. -/
def wOutcomeFail : Request → Bool := fun _ => false

/-- The module state right after widget creation. -/
def wState0 : EngineState := ⟨-1, [], [], none, none, none, none, true, true⟩

def wItem1 : LogItem :=
  ⟨1, "2017-01-01T00:00:00Z", "INFO", "a.js", 10, [],
    [FmtToken.lit "alpha"], []⟩

def wItem2 : LogItem :=
  ⟨2, "2017-01-01T00:00:01Z", "WARN", "b.js", 20, [],
    [FmtToken.lit "beta"], []⟩

/-- A configuration with count threshold 2. -/
def wCfg2 : Config := ⟨2, 5, false, 3, 3, "BATCH", "http://collector", "inst"⟩

/-- A configuration with count threshold 10 and time threshold 10 s. -/
def c3Cfg : Config := ⟨10, 10, false, 3, 3, "BATCH", "http://collector", "inst"⟩

/-- A window state: previous flush at t = 0 established the deadline
10000, the buffer is empty. -/
def c3State : EngineState :=
  ⟨0, [], [], none, none, some 10000, some 10000, true, true⟩

def c3Item : LogItem := ⟨1, "t", "INFO", "f.js", 1, [], [FmtToken.lit "x"], []⟩

def c6Cfg : Config := ⟨10, 5, false, 3, 3, "BATCH", "http://collector", "inst"⟩

def c6M1 : MessageItem := ⟨"a.js", 1, "INFO", 1, [], ["INST:inst"], "m1", "t1"⟩

def c6M2 : MessageItem := ⟨"b.js", 2, "WARN", 1, [], ["INST:inst"], "m2", "t2"⟩

/-- Two unflushed records, both timers armed, channel attached. -/
def c6State : EngineState :=
  ⟨5, [c6M1, c6M2], [], none, none, some 5000, some 5000, true, true⟩

def c6Item : LogItem :=
  ⟨6, "t", "INFO", "c.js", 3, [], [FmtToken.lit "after"], []⟩

/-- A record whose template refers to a missing replacement, so
formatting it fails. -/
def c7Item : LogItem := ⟨7, "t", "ERROR", "g.js", 9, [], [FmtToken.subst 0], []⟩

def c7State : EngineState :=
  ⟨5, [c6M1], [], none, none, some 5000, some 5000, true, true⟩

/-- A record whose formatted key equals the key of `c6M1`. -/
def c10Item : LogItem :=
  ⟨6, "t9", "INFO", "a.js", 1, [], [FmtToken.lit "m1"], []⟩

/-- A configuration with count threshold 1 and per-message requests. -/
def c10Cfg : Config :=
  ⟨1, 5, false, 3, 3, "PER_MESSAGE", "http://collector", "inst"⟩

def c8M3 : MessageItem := ⟨"c.js", 3, "ERROR", 1, [], ["INST:inst"], "m3", "t3"⟩

/-- Three distinct buffered records. -/
def c8State : EngineState :=
  ⟨5, [c6M1, c6M2, c8M3], [], none, none, some 5000, some 5000, true, true⟩

/-! Basic lemmas about the deduplicator. -/

theorem isDuplicateOf_iff (a b : MessageItem) :
    isDuplicateOf a b = true ↔ dupKey a = dupKey b := by
  simp [isDuplicateOf, dupKey, Bool.and_eq_true, beq_iff_eq, Prod.ext_iff,
    and_assoc]

theorem incRepetitionsAt_length (l : List MessageItem) (j : Nat) :
    (incRepetitionsAt l j).length = l.length := by
  induction l generalizing j with
  | nil => rfl
  | cons m ms ih =>
    cases j with
    | zero => rfl
    | succ i => simp [incRepetitionsAt, ih]

theorem incRepetitionsAt_get?_ne (l : List MessageItem) (j i : Nat)
    (h : i ≠ j) : (incRepetitionsAt l j).get? i = l.get? i := by
  induction l generalizing i j with
  | nil => rfl
  | cons m ms ih =>
    cases j with
    | zero =>
      cases i with
      | zero => exact absurd rfl h
      | succ i2 => simp [incRepetitionsAt]
    | succ j2 =>
      cases i with
      | zero => rfl
      | succ i2 =>
        simpa [incRepetitionsAt] using ih j2 i2 (fun hc => h (by rw [hc]))

theorem incRepetitionsAt_get?_eq (l : List MessageItem) (j : Nat)
    (m : MessageItem) (h : l.get? j = some m) :
    (incRepetitionsAt l j).get? j =
      some { m with repetitions := m.repetitions + 1 } := by
  induction l generalizing j with
  | nil => simp at h
  | cons m2 ms ih =>
    cases j with
    | zero =>
      rw [List.get?_cons_zero] at h
      cases h
      rfl
    | succ j2 =>
      rw [List.get?_cons_succ] at h
      simpa [incRepetitionsAt] using ih j2 h

theorem incRepetitionsAt_append_last (bs : List MessageItem)
    (b : MessageItem) :
    incRepetitionsAt (bs ++ [b]) bs.length =
      bs ++ [{ b with repetitions := b.repetitions + 1 }] := by
  induction bs with
  | nil => rfl
  | cons x xs ih => simp [incRepetitionsAt, ih]

theorem markDuplicate_eq_none (item : MessageItem)
    (buffer : List MessageItem)
    (h : ∀ m ∈ buffer, dupKey m ≠ dupKey item) :
    markDuplicate item buffer = none := by
  have hfalse : ∀ m ∈ buffer, isDuplicateOf item m = false := by
    intro m hm
    cases hEq : isDuplicateOf item m
    · rfl
    · exact absurd ((isDuplicateOf_iff item m).1 hEq).symm (h m hm)
  unfold markDuplicate
  split
  · rfl
  next lastm hg1 =>
    rw [hfalse lastm (List.get?_mem hg1)]
    simp only [Bool.false_eq_true, if_false]
    split
    · split
      · rfl
      next prevm hg2 =>
        rw [hfalse prevm (List.get?_mem hg2)]
        simp
    · rfl

theorem markDuplicate_some_shape (item : MessageItem)
    (buffer b : List MessageItem)
    (h : markDuplicate item buffer = some b) :
    ∃ j m, j < buffer.length ∧ buffer.get? j = some m ∧
      dupKey item = dupKey m ∧ b = incRepetitionsAt buffer j := by
  unfold markDuplicate at h
  split at h
  · exact absurd h (by simp)
  next lastm hg1 =>
    by_cases h1 : isDuplicateOf item lastm = true
    · rw [if_pos h1] at h
      cases h
      exact ⟨buffer.length - 1, lastm, (List.get?_eq_some.1 hg1).1, hg1,
        (isDuplicateOf_iff item lastm).1 h1, rfl⟩
    · rw [if_neg h1] at h
      split at h
      · split at h
        · exact absurd h (by simp)
        next prevm hg2 =>
          by_cases h2 : isDuplicateOf item prevm = true
          · rw [if_pos h2] at h
            cases h
            exact ⟨buffer.length - 2, prevm, (List.get?_eq_some.1 hg2).1, hg2,
              (isDuplicateOf_iff item prevm).1 h2, rfl⟩
          · rw [if_neg h2] at h
            exact absurd h (by simp)
      · exact absurd h (by simp)

theorem markDuplicate_length (item : MessageItem)
    (buffer b : List MessageItem)
    (h : markDuplicate item buffer = some b) :
    b.length = buffer.length := by
  obtain ⟨j, m, _, _, _, hb⟩ := markDuplicate_some_shape item buffer b h
  rw [hb, incRepetitionsAt_length]

theorem markDuplicate_last_match (item : MessageItem)
    (bs : List MessageItem) (b : MessageItem)
    (h : dupKey item = dupKey b) :
    markDuplicate item (bs ++ [b]) =
      some (bs ++ [{ b with repetitions := b.repetitions + 1 }]) := by
  have hlen : (bs ++ [b]).length - 1 = bs.length := by simp
  have hget : (bs ++ [b]).get? ((bs ++ [b]).length - 1) = some b := by
    rw [hlen]
    exact List.get?_concat_length bs b
  unfold markDuplicate
  split
  next hg => rw [hget] at hg; cases hg
  next lastm hg =>
    rw [hget] at hg
    cases hg
    rw [if_pos ((isDuplicateOf_iff item b).2 h), hlen,
      incRepetitionsAt_append_last]

theorem markDuplicate_isSome_iff (item : MessageItem)
    (buffer : List MessageItem) :
    (markDuplicate item buffer).isSome = true ↔
      ((∃ m, buffer.get? (buffer.length - 1) = some m ∧
          dupKey item = dupKey m) ∨
        (2 ≤ buffer.length ∧ ∃ m, buffer.get? (buffer.length - 2) = some m ∧
          dupKey item = dupKey m)) := by
  unfold markDuplicate
  split
  next hg1 =>
    simp only [Option.isSome_none, Bool.false_eq_true, false_iff]
    push_neg
    constructor
    · intro m hm
      rw [hg1] at hm
      cases hm
    · intro _ m hm
      have : buffer = [] := by
        cases buffer with
        | nil => rfl
        | cons x xs => simp at hg1
      subst this
      cases hm
  next lastm hg1 =>
    by_cases h1 : isDuplicateOf item lastm = true
    · rw [if_pos h1]
      simp only [Option.isSome_some, true_iff]
      exact Or.inl ⟨lastm, hg1, (isDuplicateOf_iff item lastm).1 h1⟩
    · rw [if_neg h1]
      have h1k : dupKey item ≠ dupKey lastm := fun hc =>
        h1 ((isDuplicateOf_iff item lastm).2 hc)
      split
      next h2n =>
        split
        next hg2 =>
          simp only [Option.isSome_none, Bool.false_eq_true, false_iff]
          push_neg
          constructor
          · intro m hm
            rw [hg1] at hm
            cases hm
            exact h1k
          · intro _ m hm
            rw [hg2] at hm
            cases hm
        next prevm hg2 =>
          by_cases h2 : isDuplicateOf item prevm = true
          · rw [if_pos h2]
            simp only [Option.isSome_some, true_iff]
            exact Or.inr ⟨h2n, prevm, hg2,
              (isDuplicateOf_iff item prevm).1 h2⟩
          · rw [if_neg h2]
            have h2k : dupKey item ≠ dupKey prevm := fun hc =>
              h2 ((isDuplicateOf_iff item prevm).2 hc)
            simp only [Option.isSome_none, Bool.false_eq_true, false_iff]
            push_neg
            constructor
            · intro m hm
              rw [hg1] at hm
              cases hm
              exact h1k
            · intro _ m hm
              rw [hg2] at hm
              cases hm
              exact h2k
      next h2n =>
        simp only [Option.isSome_none, Bool.false_eq_true, false_iff]
        push_neg
        constructor
        · intro m hm
          rw [hg1] at hm
          cases hm
          exact h1k
        · intro h2 m hm
          exact absurd h2 h2n

/-! Field-preservation lemmas for the scheduler and `submit`. -/

theorem scheduleNextSubmit_of_none (cfg : Config) (t : Nat)
    (s : EngineState) (h : s.nextSubmit = none) :
    scheduleNextSubmit cfg t s =
      { s with
          timeout := some (t + msOf cfg.thresholdSeconds)
          nextSubmit := some (t + msOf cfg.thresholdSeconds) } := by
  unfold scheduleNextSubmit
  rw [h]

theorem scheduleNextSubmit_of_some (cfg : Config) (t ns : Nat)
    (s : EngineState) (h : s.nextSubmit = some ns) :
    scheduleNextSubmit cfg t s = { s with timeout := some ns } := by
  unfold scheduleNextSubmit
  rw [h]

theorem scheduleNextResend_fields (cfg : Config) (t : Nat)
    (s : EngineState) :
    (scheduleNextResend cfg t s).nextSubmit = s.nextSubmit ∧
    (scheduleNextResend cfg t s).timeout = s.timeout ∧
    (scheduleNextResend cfg t s).buffer = s.buffer ∧
    (scheduleNextResend cfg t s).lastMessageId = s.lastMessageId ∧
    (scheduleNextResend cfg t s).resendBuffer = s.resendBuffer ∧
    (scheduleNextResend cfg t s).channelAttached = s.channelAttached := by
  exact ⟨rfl, rfl, rfl, rfl, rfl, rfl⟩

theorem submit_unfold (cfg : Config) (now : Nat) (synchronously : Bool)
    (outcome : Request → Bool) (s : EngineState) :
    submit cfg now synchronously outcome s =
      if s.buffer.length = 0 then
        ⟨{ s with
            nextSubmit := some (now + msOf cfg.thresholdSeconds)
            timeout := some (now + msOf cfg.thresholdSeconds) }, []⟩
      else
        let chunks := buildChunks cfg (s.buffer.map addRepeatSuffix)
        let failed := chunks.filter (fun r => !outcome r)
        let enqueue := cfg.retryEnabled && !synchronously
        let newResend :=
          if enqueue then
            s.resendBuffer ++ failed.map (fun r => ⟨r, cfg.retryRetries⟩)
          else s.resendBuffer
        let s2 :=
          { s with
              nextSubmit := some (now + msOf cfg.thresholdSeconds)
              timeout := some (now + msOf cfg.thresholdSeconds)
              buffer := []
              resendBuffer := newResend }
        let s3 :=
          if enqueue && !failed.isEmpty then scheduleNextResend cfg now s2
          else s2
        ⟨s3, chunks⟩ := by
  unfold submit
  rw [scheduleNextSubmit_of_none cfg now { s with nextSubmit := none } rfl]

theorem submit_buffer_empty (cfg : Config) (now : Nat) (sync : Bool)
    (outcome : Request → Bool) (s : EngineState) :
    (submit cfg now sync outcome s).state.buffer = [] := by
  rw [submit_unfold]
  split
  next h => simpa using List.length_eq_zero.1 h
  next h =>
    simp only []
    split <;> rfl

theorem submit_nextSubmit (cfg : Config) (now : Nat) (sync : Bool)
    (outcome : Request → Bool) (s : EngineState) :
    (submit cfg now sync outcome s).state.nextSubmit =
      some (now + msOf cfg.thresholdSeconds) ∧
    (submit cfg now sync outcome s).state.timeout =
      some (now + msOf cfg.thresholdSeconds) := by
  rw [submit_unfold]
  split
  · exact ⟨rfl, rfl⟩
  · simp only []
    split <;> exact ⟨rfl, rfl⟩

theorem submit_lastMessageId (cfg : Config) (now : Nat) (sync : Bool)
    (outcome : Request → Bool) (s : EngineState) :
    (submit cfg now sync outcome s).state.lastMessageId =
      s.lastMessageId := by
  rw [submit_unfold]
  split
  · rfl
  · simp only []
    split <;> rfl

theorem submit_channelAttached (cfg : Config) (now : Nat) (sync : Bool)
    (outcome : Request → Bool) (s : EngineState) :
    (submit cfg now sync outcome s).state.channelAttached =
      s.channelAttached := by
  rw [submit_unfold]
  split
  · rfl
  · simp only []
    split <;> rfl

theorem submit_requests_of_ne_nil (cfg : Config) (now : Nat) (sync : Bool)
    (outcome : Request → Bool) (s : EngineState) (h : s.buffer ≠ []) :
    (submit cfg now sync outcome s).requests =
      buildChunks cfg (s.buffer.map addRepeatSuffix) := by
  rw [submit_unfold]
  rw [if_neg (fun hc => h (List.length_eq_zero.1 hc))]

theorem submit_sync_resend_untouched (cfg : Config) (now : Nat)
    (outcome : Request → Bool) (s : EngineState) :
    (submit cfg now true outcome s).state.resendBuffer = s.resendBuffer ∧
    (submit cfg now true outcome s).state.retryTimeout = s.retryTimeout ∧
    (submit cfg now true outcome s).state.retryMilliseconds =
      s.retryMilliseconds := by
  rw [submit_unfold]
  have henq : (cfg.retryEnabled && !true) = false := by simp
  split
  · exact ⟨rfl, rfl, rfl⟩
  · simp [henq]

theorem submit_retry_disabled_resend_untouched (cfg : Config) (now : Nat)
    (sync : Bool) (outcome : Request → Bool) (s : EngineState)
    (h : cfg.retryEnabled = false) :
    (submit cfg now sync outcome s).state.resendBuffer = s.resendBuffer ∧
    (submit cfg now sync outcome s).state.retryTimeout = s.retryTimeout := by
  rw [submit_unfold]
  have henq : (cfg.retryEnabled && !sync) = false := by simp [h]
  split
  · exact ⟨rfl, rfl⟩
  · simp [henq]

/-! Path lemmas for `handleLogItem`. -/

theorem handleLogItem_stale (cfg : Config) (now : Nat)
    (outcome : Request → Bool) (item : LogItem) (s : EngineState)
    (h : item.id ≤ s.lastMessageId) :
    handleLogItem cfg now outcome item s = ⟨s, [], false, false⟩ := by
  unfold handleLogItem
  rw [if_pos h]

theorem handleLogItem_throw (cfg : Config) (now : Nat)
    (outcome : Request → Bool) (item : LogItem) (s : EngineState)
    (hid : s.lastMessageId < item.id)
    (herr : formatMessage item.text item.replacements = Except.error ()) :
    handleLogItem cfg now outcome item s =
      ⟨{ s with lastMessageId := item.id }, [], false, true⟩ := by
  unfold handleLogItem
  rw [if_neg (not_le.mpr hid), herr]

theorem handleLogItem_merge (cfg : Config) (now : Nat)
    (outcome : Request → Bool) (item : LogItem) (s : EngineState)
    (fr : FormatResult) (b : List MessageItem)
    (hid : s.lastMessageId < item.id)
    (hfmt : formatMessage item.text item.replacements = Except.ok fr)
    (hdup : markDuplicate (mkMessageItem cfg item fr) s.buffer = some b) :
    handleLogItem cfg now outcome item s =
      ⟨{ s with lastMessageId := item.id, buffer := b }, [], false, false⟩ := by
  unfold handleLogItem
  rw [if_neg (not_le.mpr hid), hfmt]
  simp only [hdup]

theorem handleLogItem_append (cfg : Config) (now : Nat)
    (outcome : Request → Bool) (item : LogItem) (s : EngineState)
    (fr : FormatResult)
    (hid : s.lastMessageId < item.id)
    (hfmt : formatMessage item.text item.replacements = Except.ok fr)
    (hdup : markDuplicate (mkMessageItem cfg item fr) s.buffer = none)
    (hlen : s.buffer.length + 1 < cfg.thresholdMessages) :
    handleLogItem cfg now outcome item s =
      ⟨{ s with
          lastMessageId := item.id
          buffer := s.buffer ++ [mkMessageItem cfg item fr] },
        [], false, false⟩ := by
  unfold handleLogItem
  rw [if_neg (not_le.mpr hid), hfmt]
  simp only [hdup]
  rw [if_neg]
  simp only [List.length_append, List.length_singleton]
  omega

theorem handleLogItem_flush (cfg : Config) (now : Nat)
    (outcome : Request → Bool) (item : LogItem) (s : EngineState)
    (fr : FormatResult)
    (hid : s.lastMessageId < item.id)
    (hfmt : formatMessage item.text item.replacements = Except.ok fr)
    (hdup : markDuplicate (mkMessageItem cfg item fr) s.buffer = none)
    (hlen : cfg.thresholdMessages ≤ s.buffer.length + 1) :
    handleLogItem cfg now outcome item s =
      ⟨(submit cfg now false outcome
          { s with
              lastMessageId := item.id
              buffer := s.buffer ++ [mkMessageItem cfg item fr] }).state,
        (submit cfg now false outcome
          { s with
              lastMessageId := item.id
              buffer := s.buffer ++ [mkMessageItem cfg item fr] }).requests,
        true, false⟩ := by
  unfold handleLogItem
  rw [if_neg (not_le.mpr hid), hfmt]
  simp only [hdup]
  rw [if_pos]
  simp only [List.length_append, List.length_singleton]
  omega

/-! Coherence of `fmtOk`, `toMsg` and `keyOf`. -/

theorem toMsg_eq (cfg : Config) (item : LogItem) (fr : FormatResult)
    (h : formatMessage item.text item.replacements = Except.ok fr) :
    toMsg cfg item = mkMessageItem cfg item fr := by
  unfold toMsg
  rw [h]

theorem keyOf_eq (cfg : Config) (item : LogItem) (fr : FormatResult)
    (h : formatMessage item.text item.replacements = Except.ok fr) :
    keyOf cfg item = dupKey (mkMessageItem cfg item fr) := by
  unfold keyOf
  rw [h]

theorem fmtOk_elim (item : LogItem) (h : fmtOk item = true) :
    ∃ fr, formatMessage item.text item.replacements = Except.ok fr := by
  unfold fmtOk at h
  cases hf : formatMessage item.text item.replacements with
  | ok fr => exact ⟨fr, rfl⟩
  | error e => rw [hf] at h; cases h

theorem keyOf_eq_dupKey_toMsg (cfg : Config) (item : LogItem)
    (h : fmtOk item = true) :
    keyOf cfg item = dupKey (toMsg cfg item) := by
  obtain ⟨fr, hf⟩ := fmtOk_elim item h
  rw [keyOf_eq cfg item fr hf, toMsg_eq cfg item fr hf]

/-! Lemmas about distinct key lists. -/

theorem keyNotIn_iff (k : Nat × String × String × String)
    (ks : List (Nat × String × String × String)) :
    keyNotIn k ks = true ↔ ∀ k2 ∈ ks, k ≠ k2 := by
  induction ks with
  | nil => simp [keyNotIn]
  | cons k2 ks ih =>
    unfold keyNotIn
    by_cases h : k = k2
    · simp [h]
    · simp [h, ih]

theorem keyNotIn_sub (k : Nat × String × String × String)
    (ks ks2 : List (Nat × String × String × String))
    (hsub : ∀ x ∈ ks2, x ∈ ks)
    (h : keyNotIn k ks = true) : keyNotIn k ks2 = true := by
  rw [keyNotIn_iff] at h ⊢
  exact fun k2 hk2 => h k2 (hsub k2 hk2)

theorem keysDistinct_cons_elim (k : Nat × String × String × String)
    (ks : List (Nat × String × String × String))
    (h : keysDistinct (k :: ks) = true) :
    keyNotIn k ks = true ∧ keysDistinct ks = true := by
  unfold keysDistinct at h
  rw [Bool.and_eq_true] at h
  exact h

theorem keysDistinct_mid (xs : List (Nat × String × String × String))
    (y : Nat × String × String × String)
    (ys : List (Nat × String × String × String))
    (h : keysDistinct (xs ++ y :: ys) = true) :
    ∀ x ∈ xs, x ≠ y := by
  induction xs with
  | nil => intro x hx; cases hx
  | cons x2 xs2 ih =>
    intro x hx
    obtain ⟨hni, hrest⟩ := keysDistinct_cons_elim x2 (xs2 ++ y :: ys) h
    cases hx with
    | head =>
      exact (keyNotIn_iff x2 (xs2 ++ y :: ys)).1 hni y
        (List.mem_append.2 (Or.inr (List.mem_cons_self y ys)))
    | tail _ hx2 => exact ih hrest x hx2

theorem keysDistinct_take
    (ks : List (Nat × String × String × String)) (n : Nat)
    (h : keysDistinct ks = true) : keysDistinct (ks.take n) = true := by
  induction ks generalizing n with
  | nil => rw [List.take_nil]; exact h
  | cons k ks2 ih =>
    cases n with
    | zero => rfl
    | succ n2 =>
      obtain ⟨hni, hrest⟩ := keysDistinct_cons_elim k ks2 h
      rw [List.take_succ_cons]
      unfold keysDistinct
      rw [keyNotIn_sub k ks2 (ks2.take n2) (fun x hx => List.take_subset n2 ks2 hx) hni,
        ih n2 hrest]
      rfl

/-! Closure of the run hypotheses under `take`, and splitting runs. -/

theorem formatsOk_cons (item : LogItem) (l : List LogItem) :
    formatsOk (item :: l) = (fmtOk item && formatsOk l) := by
  simp [formatsOk, List.all_cons]

theorem formatsOk_append (l1 l2 : List LogItem) :
    formatsOk (l1 ++ l2) = (formatsOk l1 && formatsOk l2) := by
  simp [formatsOk, List.all_append]

theorem formatsOk_take (l : List LogItem) (n : Nat)
    (h : formatsOk l = true) : formatsOk (l.take n) = true := by
  rw [formatsOk, List.all_eq_true] at h ⊢
  exact fun x hx => h x (List.take_subset n l hx)

theorem idsFresh_cons_elim (i : Int) (item : LogItem) (l : List LogItem)
    (h : idsFresh i (item :: l) = true) :
    i < item.id ∧ idsFresh item.id l = true := by
  unfold idsFresh at h
  rw [Bool.and_eq_true, decide_eq_true_eq] at h
  exact h

theorem idsFresh_take (i : Int) (l : List LogItem) (n : Nat)
    (h : idsFresh i l = true) : idsFresh i (l.take n) = true := by
  induction l generalizing i n with
  | nil => rw [List.take_nil]; exact h
  | cons item l2 ih =>
    cases n with
    | zero => rfl
    | succ n2 =>
      obtain ⟨h1, h2⟩ := idsFresh_cons_elim i item l2 h
      rw [List.take_succ_cons]
      unfold idsFresh
      rw [ih item.id n2 h2]
      simp [h1]

theorem ingestList_append (cfg : Config) (now : Nat)
    (outcome : Request → Bool) (l1 l2 : List LogItem) (s : EngineState) :
    ingestList cfg now outcome (l1 ++ l2) s =
      ⟨(ingestList cfg now outcome l2
          (ingestList cfg now outcome l1 s).state).state,
        (ingestList cfg now outcome l1 s).flushes +
          (ingestList cfg now outcome l2
            (ingestList cfg now outcome l1 s).state).flushes,
        (ingestList cfg now outcome l1 s).requests ++
          (ingestList cfg now outcome l2
            (ingestList cfg now outcome l1 s).state).requests,
        (ingestList cfg now outcome l1 s).threwCount +
          (ingestList cfg now outcome l2
            (ingestList cfg now outcome l1 s).state).threwCount⟩ := by
  induction l1 generalizing s with
  | nil => simp [ingestList]
  | cons item l1x ih =>
    rw [List.cons_append]
    simp only [ingestList]
    rw [ih]
    simp [Nat.add_assoc, List.append_assoc]

/-- The no-flush ingestion run: with all keys pairwise distinct, fresh
ids, successful formatting and too few records to reach the count
threshold, every record is appended and nothing else happens. -/
theorem ingest_run_no_flush (cfg : Config) (now : Nat)
    (outcome : Request → Bool) :
    ∀ (rest done : List LogItem) (s : EngineState),
    s.buffer = done.map (toMsg cfg) →
    formatsOk done = true →
    formatsOk rest = true →
    keysDistinct ((done ++ rest).map (keyOf cfg)) = true →
    idsFresh s.lastMessageId rest = true →
    done.length + rest.length < cfg.thresholdMessages →
    ingestList cfg now outcome rest s =
      ⟨{ s with
          buffer := (done ++ rest).map (toMsg cfg)
          lastMessageId := lastIdOf s.lastMessageId rest }, 0, [], 0⟩ := by
  intro rest
  induction rest with
  | nil =>
    intro done s hbuf hfd hfr hkeys hids hlen
    simp only [ingestList, List.append_nil, lastIdOf]
    rw [← hbuf]
  | cons item rest2 ih =>
    intro done s hbuf hfd hfr hkeys hids hlen
    rw [formatsOk_cons, Bool.and_eq_true] at hfr
    obtain ⟨hfi, hfr2⟩ := hfr
    obtain ⟨fr, hf⟩ := fmtOk_elim item hfi
    obtain ⟨hid1, hids2⟩ := idsFresh_cons_elim s.lastMessageId item rest2 hids
    have hkeysmid : ∀ x ∈ done.map (keyOf cfg), x ≠ keyOf cfg item := by
      have hmap : (done ++ item :: rest2).map (keyOf cfg) =
          done.map (keyOf cfg) ++
            keyOf cfg item :: rest2.map (keyOf cfg) := by
        simp
      rw [hmap] at hkeys
      exact keysDistinct_mid (done.map (keyOf cfg)) (keyOf cfg item)
        (rest2.map (keyOf cfg)) hkeys
    have hdup : markDuplicate (mkMessageItem cfg item fr) s.buffer = none := by
      apply markDuplicate_eq_none
      intro m hm
      rw [hbuf] at hm
      obtain ⟨d, hd, hdm⟩ := List.mem_map.1 hm
      have hfdOk : fmtOk d = true := by
        rw [formatsOk, List.all_eq_true] at hfd
        exact hfd d hd
      rw [← hdm, ← keyOf_eq_dupKey_toMsg cfg d hfdOk,
        ← keyOf_eq cfg item fr hf]
      exact hkeysmid (keyOf cfg d) (List.mem_map.2 ⟨d, hd, rfl⟩)
    have hlen1 : s.buffer.length + 1 < cfg.thresholdMessages := by
      have hb : s.buffer.length = done.length := by
        rw [hbuf, List.length_map]
      simp only [List.length_cons] at hlen
      omega
    have hstep := handleLogItem_append cfg now outcome item s fr hid1 hf
      hdup hlen1
    simp only [ingestList, hstep]
    have hbuf2 : ({ s with
        lastMessageId := item.id
        buffer := s.buffer ++ [mkMessageItem cfg item fr] } :
          EngineState).buffer = (done ++ [item]).map (toMsg cfg) := by
      simp only [hbuf, List.map_append, List.map_cons, List.map_nil]
      rw [toMsg_eq cfg item fr hf]
    have hkeys2 : keysDistinct (((done ++ [item]) ++ rest2).map
        (keyOf cfg)) = true := by
      rw [← List.append_cons]
      exact hkeys
    have hfd2 : formatsOk (done ++ [item]) = true := by
      rw [formatsOk_append, Bool.and_eq_true]
      refine ⟨hfd, ?_⟩
      rw [formatsOk_cons]
      simp [hfi, formatsOk]
    have hlen2 : (done ++ [item]).length + rest2.length <
        cfg.thresholdMessages := by
      simp only [List.length_append, List.length_singleton,
        List.length_cons, List.length_nil] at hlen ⊢
      omega
    have hids2x : idsFresh ({ s with
        lastMessageId := item.id
        buffer := s.buffer ++ [mkMessageItem cfg item fr]} :
          EngineState).lastMessageId rest2 = true := hids2
    have hrec := ih (done ++ [item])
      { s with
          lastMessageId := item.id
          buffer := s.buffer ++ [mkMessageItem cfg item fr] }
      hbuf2 hfd2 hfr2 hkeys2 hids2x hlen2
    rw [hrec]
    rw [← List.append_cons]
    rfl

/-- Any non-flushing `handleLogItem` call leaves the scheduler and
retry state untouched. -/
theorem handleLogItem_cases (cfg : Config) (now : Nat)
    (outcome : Request → Bool) (item : LogItem) (s : EngineState) :
    (handleLogItem cfg now outcome item s).flushed = true ∨
    ((handleLogItem cfg now outcome item s).state.nextSubmit =
        s.nextSubmit ∧
      (handleLogItem cfg now outcome item s).state.timeout = s.timeout ∧
      (handleLogItem cfg now outcome item s).state.resendBuffer =
        s.resendBuffer ∧
      (handleLogItem cfg now outcome item s).state.retryTimeout =
        s.retryTimeout) := by
  simp only [handleLogItem]
  split
  · exact Or.inr ⟨rfl, rfl, rfl, rfl⟩
  · split
    · exact Or.inr ⟨rfl, rfl, rfl, rfl⟩
    · split
      · exact Or.inr ⟨rfl, rfl, rfl, rfl⟩
      · split
        · exact Or.inl rfl
        · exact Or.inr ⟨rfl, rfl, rfl, rfl⟩

/-- A fresh record always advances `lastMessageId` to its id. -/
theorem handleLogItem_fresh_lastId (cfg : Config) (now : Nat)
    (outcome : Request → Bool) (item : LogItem) (s : EngineState)
    (hid : s.lastMessageId < item.id) :
    (handleLogItem cfg now outcome item s).state.lastMessageId =
      item.id := by
  simp only [handleLogItem]
  rw [if_neg (not_le.mpr hid)]
  split
  · rfl
  · split
    · rfl
    · split
      · rw [submit_lastMessageId]
      · rfl

/-- Whether a merge happens over `bs ++ [a, b]` depends only on the
last two entries `a` and `b`. -/
theorem markDuplicate_isSome_pair (item a b : MessageItem)
    (bs : List MessageItem) :
    ((markDuplicate item (bs ++ [a, b])).isSome = true) ↔
      (dupKey item = dupKey b ∨ dupKey item = dupKey a) := by
  rw [markDuplicate_isSome_iff]
  have h1 : (bs ++ [a, b]).length = bs.length + 2 := by simp
  have hg1 : (bs ++ [a, b]).get? ((bs ++ [a, b]).length - 1) = some b := by
    rw [h1]
    have h2 : bs.length + 2 - 1 = bs.length + 1 := by omega
    rw [h2, List.get?_append_right (by omega)]
    simp
  have hg2 : (bs ++ [a, b]).get? ((bs ++ [a, b]).length - 2) = some a := by
    rw [h1]
    have h2 : bs.length + 2 - 2 = bs.length := by omega
    rw [h2, List.get?_append_right (by omega)]
    simp
  rw [hg1, hg2, h1]
  simp

/-! Lemmas about the retry queue. -/

theorem resendTick_evict_head (outcome : Request → Bool) (p : Request)
    (rb : List PendingSubmission) :
    resendTick outcome ({ payload := p, retriesLeft := 0 } :: rb) =
      resendTick outcome rb := by
  simp [resendTick]

theorem resendTick_fail (outcome : Request → Bool) (p : Request)
    (n : Nat) (hfail : outcome p = false) (hn : 0 < n) :
    resendTick outcome [⟨p, n⟩] = ([⟨p, n - 1⟩], [p]) := by
  simp [resendTick, resendStep, hfail, hn]

theorem resendTick_success (outcome : Request → Bool) (q : Request)
    (n : Nat) (hq : outcome q = true) (hn : 0 < n) :
    resendTick outcome [⟨q, n⟩] = ([⟨q, 0⟩], [q]) := by
  simp [resendTick, resendStep, hq, hn]

theorem resendTick_exhausted (outcome : Request → Bool) (p : Request) :
    resendTick outcome [⟨p, 0⟩] = ([], []) := by
  simp [resendTick]

/-! The formatter: relating `runFormat` to the occurrence-indexed
rendering. -/

theorem runFormat_ok (tokens : List FmtToken) (repl : List String) :
    ∀ (acc : List String) (t : String) (a : List String),
    runFormat tokens repl acc = Except.ok (t, a) →
    a = acc ++ anonValues tokens repl ∧
      t = textSpec tokens repl acc.length := by
  induction tokens with
  | nil =>
    intro acc t a h
    simp only [runFormat, Except.ok.injEq, Prod.mk.injEq] at h
    obtain ⟨ht, ha⟩ := h
    rw [← ht, ← ha]
    simp [anonValues, textSpec]
  | cons tok rest ih =>
    intro acc t a h
    cases tok with
    | lit s =>
      cases hr : runFormat rest repl acc with
      | ok pair =>
        obtain ⟨t2, a2⟩ := pair
        simp only [runFormat, hr, Except.ok.injEq, Prod.mk.injEq] at h
        obtain ⟨ht, ha⟩ := h
        obtain ⟨ha2, ht2⟩ := ih acc t2 a2 hr
        constructor
        · rw [← ha, ha2]
          simp [anonValues]
        · rw [← ht, ht2]
          simp [textSpec]
      | error e =>
        simp [runFormat, hr] at h
    | subst i =>
      cases hg : repl[i]? with
      | none =>
        simp [runFormat, hg] at h
      | some v =>
        cases hr : runFormat rest repl acc with
        | ok pair =>
          obtain ⟨t2, a2⟩ := pair
          simp only [runFormat, List.get?_eq_getElem?, hg, hr,
            Except.ok.injEq, Prod.mk.injEq] at h
          obtain ⟨ht, ha⟩ := h
          obtain ⟨ha2, ht2⟩ := ih acc t2 a2 hr
          constructor
          · rw [← ha, ha2]
            simp [anonValues]
          · rw [← ht, ht2]
            simp [textSpec, hg]
        | error e =>
          simp [runFormat, hg, hr] at h
    | anon i =>
      cases hg : repl[i]? with
      | none =>
        simp [runFormat, hg] at h
      | some v =>
        cases hr : runFormat rest repl (acc ++ [v]) with
        | ok pair =>
          obtain ⟨t2, a2⟩ := pair
          simp only [runFormat, List.get?_eq_getElem?, hg, hr,
            Except.ok.injEq, Prod.mk.injEq] at h
          obtain ⟨ht, ha⟩ := h
          obtain ⟨ha2, ht2⟩ := ih (acc ++ [v]) t2 a2 hr
          constructor
          · rw [← ha, ha2]
            simp [anonValues, hg]
          · rw [← ht, ht2]
            simp [textSpec]
        | error e =>
          simp [runFormat, hg, hr] at h

theorem formatMessage_ok (tokens : List FmtToken) (repl : List String)
    (fr : FormatResult)
    (h : formatMessage tokens repl = Except.ok fr) :
    fr.replacements = anonValues tokens repl ∧
      fr.text = textSpec tokens repl 0 := by
  cases hr : runFormat tokens repl [] with
  | ok pair =>
    obtain ⟨t, a⟩ := pair
    simp only [formatMessage, hr, Except.ok.injEq] at h
    obtain ⟨ha, ht⟩ := runFormat_ok tokens repl [] t a hr
    rw [← h]
    constructor
    · rw [ha]
      simp
    · rw [ht]
      rfl
  | error e =>
    simp [formatMessage, hr] at h

/-- A single ingestion step keeps the buffer length below the count
threshold (given a positive threshold). -/
theorem handleLogItem_buffer_bound (cfg : Config) (now : Nat)
    (outcome : Request → Bool) (item : LogItem) (s : EngineState)
    (hT : 1 ≤ cfg.thresholdMessages)
    (h : s.buffer.length < cfg.thresholdMessages) :
    (handleLogItem cfg now outcome item s).state.buffer.length <
      cfg.thresholdMessages := by
  simp only [handleLogItem]
  split
  · exact h
  · split
    · exact h
    · split
      next b hdup =>
        have hlen := markDuplicate_length _ _ _ hdup
        simpa [hlen] using h
      · split
        · rw [submit_buffer_empty]
          simpa using hT
        next hguard => exact Nat.lt_of_not_le hguard

/-- Claim C2: a failed asynchronous payload entering the retry queue
with budget `retry.retries = 3` is attempted exactly once on each of
the next 3 retry-timer fires (its budget decremented each time), still
sits in the queue marked exhausted right after the 3rd failure, and the
4th fire evicts it without attempting it, leaving the queue empty; on
every fire, entries with `retriesLeft = 0` are evicted before any
attempt; a successful attempt sets `retriesLeft = 0` so the entry is
evicted on the next tick; an emptied queue also drops the retry
timer. -/
theorem c2_retry_budget (p : Request) (outcome : Request → Bool)
    (hfail : outcome p = false) :
    resendTicks outcome 3 [⟨p, 3⟩] = ([⟨p, 0⟩], [p, p, p]) ∧
    resendTicks outcome 4 [⟨p, 3⟩] = ([], [p, p, p]) ∧
    (∀ (rb : List PendingSubmission) (q : Request),
      resendTick outcome ({ payload := q, retriesLeft := 0 } :: rb) =
        resendTick outcome rb) ∧
    (∀ (q : Request) (n : Nat), outcome q = true → 0 < n →
      resendTicks outcome 2 [⟨q, n⟩] = ([], [q])) ∧
    (∀ (s : EngineState), s.resendBuffer = [⟨p, 0⟩] →
      (resendMessages 0 outcome s).resendBuffer = [] ∧
      (resendMessages 0 outcome s).retryTimeout = none) := by
  have t1 : resendTick outcome [⟨p, 3⟩] = ([⟨p, 2⟩], [p]) := by
    simpa using resendTick_fail outcome p 3 hfail (by omega)
  have t2 : resendTick outcome [⟨p, 2⟩] = ([⟨p, 1⟩], [p]) := by
    simpa using resendTick_fail outcome p 2 hfail (by omega)
  have t3 : resendTick outcome [⟨p, 1⟩] = ([⟨p, 0⟩], [p]) := by
    simpa using resendTick_fail outcome p 1 hfail (by omega)
  have t4 := resendTick_exhausted outcome p
  refine ⟨?_, ?_, ?_, ?_, ?_⟩
  · simp [resendTicks, t1, t2, t3]
  · simp [resendTicks, t1, t2, t3, t4]
  · intro rb q
    exact resendTick_evict_head outcome q rb
  · intro q n hq hn
    have u1 : resendTick outcome [⟨q, n⟩] = ([⟨q, 0⟩], [q]) :=
      resendTick_success outcome q n hq hn
    simp [resendTicks, u1, resendTick_exhausted]
  · intro s hs
    constructor <;> simp [resendMessages, hs]

/-- Witness for C2 at a concrete payload against an always-failing
network. -/
theorem c2_retry_budget_witness :
    resendTicks wOutcomeFail 4 [⟨Request.batch [c6M1] "o", 3⟩] =
      ([], [Request.batch [c6M1] "o", Request.batch [c6M1] "o",
        Request.batch [c6M1] "o"]) :=
  (c2_retry_budget (Request.batch [c6M1] "o") wOutcomeFail rfl).2.1

/-- Claim C3 is false on the code: in a window whose deadline 10000 was
established by the flush at t = 0, the first pending record of the
window (arriving at `now0 = 3000`) does not establish a deadline of
`now0 + threshold.seconds = 13000`; the deadline and timer stay at
10000, so the flush fires at 10000, strictly before
`now0 + threshold.seconds`. -/
theorem c3_counterexample :
    (handleLogItem c3Cfg 3000 wOutcomeOk c3Item c3State).flushed =
      false ∧
    (handleLogItem c3Cfg 3000 wOutcomeOk c3Item
      c3State).state.buffer.length = 1 ∧
    (handleLogItem c3Cfg 3000 wOutcomeOk c3Item c3State).state.nextSubmit =
      some 10000 ∧
    (handleLogItem c3Cfg 3000 wOutcomeOk c3Item c3State).state.timeout =
      some 10000 ∧
    some 10000 ≠ some (3000 + msOf c3Cfg.thresholdSeconds) ∧
    10000 < 3000 + msOf c3Cfg.thresholdSeconds := by
  decide

/-- Claim C3 (amended): the submit deadline of a window is established
by the preceding flush (`submit` at time `t` sets deadline and timer to
`t + threshold.seconds`), not by the first pending record; ingestion
that does not trigger a count flush leaves both the deadline and the
timer untouched; and since the previous flush happened at or before the
first arrival `now0` of the window, the flush fires at the established
deadline, which is at or *before* `now0 + threshold.seconds` (the time
threshold bounds buffering latency from above). -/
theorem c3_amended_window_deadline (cfg : Config) (now t now0 : Nat)
    (sync : Bool) (outcome : Request → Bool) (item : LogItem)
    (s : EngineState) :
    ((handleLogItem cfg now outcome item s).flushed = false →
      (handleLogItem cfg now outcome item s).state.nextSubmit =
        s.nextSubmit ∧
      (handleLogItem cfg now outcome item s).state.timeout = s.timeout) ∧
    ((submit cfg t sync outcome s).state.nextSubmit =
        some (t + msOf cfg.thresholdSeconds) ∧
      (submit cfg t sync outcome s).state.timeout =
        some (t + msOf cfg.thresholdSeconds)) ∧
    (t ≤ now0 →
      t + msOf cfg.thresholdSeconds ≤ now0 + msOf cfg.thresholdSeconds) := by
  refine ⟨?_, submit_nextSubmit cfg t sync outcome s, fun h => by omega⟩
  intro hnf
  rcases handleLogItem_cases cfg now outcome item s with hfl | hrest
  · rw [hfl] at hnf
    cases hnf
  · exact ⟨hrest.1, hrest.2.1⟩

/-- Witness for the amended C3 at concrete inputs. -/
theorem c3_amended_window_deadline_witness :
    (handleLogItem c3Cfg 3000 wOutcomeOk c3Item c3State).state.nextSubmit =
      c3State.nextSubmit ∧
    (submit c3Cfg 0 false wOutcomeOk c3State).state.nextSubmit =
      some (0 + msOf c3Cfg.thresholdSeconds) := by
  refine ⟨((c3_amended_window_deadline c3Cfg 3000 0 5 false wOutcomeOk
    c3Item c3State).1 (by decide)).1, ?_⟩
  exact (c3_amended_window_deadline c3Cfg 3000 0 5 false wOutcomeOk
    c3Item c3State).2.1.1

/-- Claim C5: a record whose id is at or below `lastMessageId` is a
complete no-op (state, including buffer and scheduler, is returned
unchanged, nothing is posted, nothing flushed, nothing thrown), and an
accepted (fresh) record always advances `lastMessageId` to its id. -/
theorem c5_stale_id_noop (cfg : Config) (now : Nat)
    (outcome : Request → Bool) (item : LogItem) (s : EngineState) :
    (item.id ≤ s.lastMessageId →
      handleLogItem cfg now outcome item s = ⟨s, [], false, false⟩) ∧
    (s.lastMessageId < item.id →
      (handleLogItem cfg now outcome item s).state.lastMessageId =
        item.id) :=
  ⟨fun h => handleLogItem_stale cfg now outcome item s h,
    fun h => handleLogItem_fresh_lastId cfg now outcome item s h⟩

/-- Witness for C5: replaying id 5 into a state that has seen id 5. -/
theorem c5_stale_id_noop_witness :
    handleLogItem c6Cfg 100 wOutcomeOk
      ⟨5, "t", "INFO", "c.js", 3, [], [FmtToken.lit "x"], []⟩ c6State =
      ⟨c6State, [], false, false⟩ ∧
    (handleLogItem c6Cfg 100 wOutcomeOk c6Item c6State).state.lastMessageId =
      c6Item.id := by
  constructor
  · exact (c5_stale_id_noop c6Cfg 100 wOutcomeOk
      ⟨5, "t", "INFO", "c.js", 3, [], [FmtToken.lit "x"], []⟩ c6State).1
      (by decide)
  · exact (c5_stale_id_noop c6Cfg 100 wOutcomeOk c6Item c6State).2
      (by decide)

/-- Claim C7 is false on the code: a record whose formatting fails is
not caught locally — `handleLogItem` throws (the failure propagates to
the caller), the record is not buffered (no error-marker entry is
added), and `lastMessageId` has already been advanced. -/
theorem c7_counterexample :
    (handleLogItem c6Cfg 100 wOutcomeOk c7Item c7State).threw = true ∧
    (handleLogItem c6Cfg 100 wOutcomeOk c7Item c7State).state.buffer =
      c7State.buffer ∧
    (handleLogItem c6Cfg 100 wOutcomeOk c7Item c7State).requests = [] ∧
    (handleLogItem c6Cfg 100 wOutcomeOk c7Item
      c7State).state.lastMessageId = 7 := by
  decide

/-- Claim C7 (amended): a formatting failure is *not* caught by
`handleLogItem`: the exception propagates to the caller, the record is
not buffered (and no error-marker text is produced), and the only state
change is that `lastMessageId` was already advanced before formatting —
so the failed record is permanently skipped while ingestion of
subsequent records (later calls on the unchanged buffer) is
unaffected. -/
theorem c7_amended_format_failure (cfg : Config) (now : Nat)
    (outcome : Request → Bool) (item : LogItem) (s : EngineState)
    (hid : s.lastMessageId < item.id)
    (herr : formatMessage item.text item.replacements =
      Except.error ()) :
    handleLogItem cfg now outcome item s =
      ⟨{ s with lastMessageId := item.id }, [], false, true⟩ :=
  handleLogItem_throw cfg now outcome item s hid herr

/-- Witness for the amended C7 at the concrete failing record. -/
theorem c7_amended_format_failure_witness :
    handleLogItem c6Cfg 100 wOutcomeOk c7Item c7State =
      ⟨{ c7State with lastMessageId := 7 }, [], false, true⟩ :=
  c7_amended_format_failure c6Cfg 100 wOutcomeOk c7Item c7State
    (by decide) rfl

/-- Claim C9: whenever formatting succeeds, the values routed through
the anonymize formatter are returned on the side list `replacements` in
occurrence order, and the rendered text is the occurrence-indexed
rendering in which the k-th anonymize occurrence contributes exactly
the placeholder `[k:anonymize]` (the raw value is never rendered into
the text). -/
theorem c9_anonymize (tokens : List FmtToken) (repl : List String)
    (fr : FormatResult)
    (h : formatMessage tokens repl = Except.ok fr) :
    fr.replacements = anonValues tokens repl ∧
    fr.text = textSpec tokens repl 0 :=
  formatMessage_ok tokens repl fr h

/-- Witness for C9: two anonymized values and one plain replacement. -/
theorem c9_anonymize_witness :
    (FormatResult.mk
      "user [0:anonymize] of id47 did [1:anonymize]" ["alice", "login"]).replacements =
      anonValues
        [FmtToken.lit "user ", FmtToken.anon 0, FmtToken.lit " of ",
          FmtToken.subst 1, FmtToken.lit " did ", FmtToken.anon 2]
        ["alice", "id47", "login"] ∧
    (FormatResult.mk
      "user [0:anonymize] of id47 did [1:anonymize]" ["alice", "login"]).text =
      textSpec
        [FmtToken.lit "user ", FmtToken.anon 0, FmtToken.lit " of ",
          FmtToken.subst 1, FmtToken.lit " did ", FmtToken.anon 2]
        ["alice", "id47", "login"] 0 :=
  c9_anonymize
    [FmtToken.lit "user ", FmtToken.anon 0, FmtToken.lit " of ",
      FmtToken.subst 1, FmtToken.lit " did ", FmtToken.anon 2]
    ["alice", "id47", "login"]
    (FormatResult.mk
      "user [0:anonymize] of id47 did [1:anonymize]" ["alice", "login"])
    rfl

/-- Claim C10: a record merged as a duplicate changes exactly one
buffer entry, and of that entry only the `repetitions` field (by
exactly 1) — its `time`, `tags`, `replacements` and all other fields
survive from the first occurrence, all other entries are untouched —
and the merge path returns before the count-threshold check: no flush
is triggered, nothing is posted, and scheduler state is unchanged. -/
theorem c10_merge_frame (cfg : Config) (now : Nat)
    (outcome : Request → Bool) (item : LogItem) (s : EngineState)
    (fr : FormatResult) (b : List MessageItem)
    (hid : s.lastMessageId < item.id)
    (hfmt : formatMessage item.text item.replacements = Except.ok fr)
    (hdup : markDuplicate (mkMessageItem cfg item fr) s.buffer = some b) :
    handleLogItem cfg now outcome item s =
      ⟨{ s with lastMessageId := item.id, buffer := b }, [],
        false, false⟩ ∧
    (∃ j m, j < s.buffer.length ∧ s.buffer.get? j = some m ∧
      b.get? j = some { m with repetitions := m.repetitions + 1 } ∧
      (∀ i, i ≠ j → b.get? i = s.buffer.get? i)) := by
  refine ⟨handleLogItem_merge cfg now outcome item s fr b hid hfmt hdup,
    ?_⟩
  obtain ⟨j, m, hj, hget, hkey, hb⟩ :=
    markDuplicate_some_shape _ _ _ hdup
  refine ⟨j, m, hj, hget, ?_, ?_⟩
  · rw [hb]
    exact incRepetitionsAt_get?_eq _ _ _ hget
  · intro i hi
    rw [hb]
    exact incRepetitionsAt_get?_ne _ _ _ hi

/-- Witness for C10: merging into a buffer already at the count
threshold 1 still does not flush. -/
theorem c10_merge_frame_witness :
    handleLogItem c10Cfg 100 wOutcomeOk c10Item
      ⟨5, [c6M1], [], none, none, some 5000, some 5000, true, true⟩ =
      ⟨{ (⟨5, [c6M1], [], none, none, some 5000, some 5000, true, true⟩ :
            EngineState) with
          lastMessageId := 6
          buffer := [{ c6M1 with repetitions := 2 }] }, [],
        false, false⟩ :=
  (c10_merge_frame c10Cfg 100 wOutcomeOk c10Item
    ⟨5, [c6M1], [], none, none, some 5000, some 5000, true, true⟩
    ⟨"m1", []⟩ [{ c6M1 with repetitions := 2 }]
    (by decide) rfl (by decide)).1

/-- Claim C4: the duplicate check inspects only the last 2 buffer
entries; a record is merged iff its `file`, `line`, `level` and final
text (the duplicate key) equal those of one of these entries, in which
case that entry has its `repetitions` incremented by exactly 1 and
nothing is appended (length unchanged); otherwise nothing is merged;
consequently an ingested record identical to the last buffered entry
leaves the buffer length unchanged. -/
theorem c4_duplicate_check (cfg : Config) (now : Nat)
    (outcome : Request → Bool) :
    (∀ (item a b : MessageItem) (bs : List MessageItem),
      (markDuplicate item (bs ++ [a, b])).isSome =
        (markDuplicate item [a, b]).isSome) ∧
    (∀ (item a b : MessageItem) (bs : List MessageItem),
      ((markDuplicate item (bs ++ [a, b])).isSome = true ↔
        (dupKey item = dupKey b ∨ dupKey item = dupKey a))) ∧
    (∀ (item a b : MessageItem) (bs : List MessageItem),
      dupKey item ≠ dupKey b → dupKey item ≠ dupKey a →
      markDuplicate item (bs ++ [a, b]) = none) ∧
    (∀ (item b : MessageItem) (bs : List MessageItem),
      dupKey item = dupKey b →
      markDuplicate item (bs ++ [b]) =
        some (bs ++ [{ b with repetitions := b.repetitions + 1 }])) ∧
    (∀ (item : MessageItem) (buffer b2 : List MessageItem),
      markDuplicate item buffer = some b2 → b2.length = buffer.length) ∧
    (∀ (item : LogItem) (s : EngineState) (fr : FormatResult)
      (bs : List MessageItem) (b : MessageItem),
      s.lastMessageId < item.id →
      formatMessage item.text item.replacements = Except.ok fr →
      s.buffer = bs ++ [b] →
      dupKey (mkMessageItem cfg item fr) = dupKey b →
      (handleLogItem cfg now outcome item s).state.buffer =
        bs ++ [{ b with repetitions := b.repetitions + 1 }] ∧
      (handleLogItem cfg now outcome item s).state.buffer.length =
        s.buffer.length) := by
  refine ⟨?_, ?_, ?_, ?_, ?_, ?_⟩
  · intro item a b bs
    have h2 := markDuplicate_isSome_pair item a b []
    rw [List.nil_append] at h2
    exact Bool.eq_iff_iff.2
      ((markDuplicate_isSome_pair item a b bs).trans h2.symm)
  · intro item a b bs
    exact markDuplicate_isSome_pair item a b bs
  · intro item a b bs h1 h2
    cases hmd : markDuplicate item (bs ++ [a, b]) with
    | none => rfl
    | some x =>
      have hsome : (markDuplicate item (bs ++ [a, b])).isSome = true := by
        rw [hmd]
        rfl
      rcases (markDuplicate_isSome_pair item a b bs).1 hsome with h | h
      · exact absurd h h1
      · exact absurd h h2
  · intro item b bs h
    exact markDuplicate_last_match item bs b h
  · intro item buffer b2 h
    exact markDuplicate_length item buffer b2 h
  · intro item s fr bs b hid hf hbuf hkey
    have hdup : markDuplicate (mkMessageItem cfg item fr) s.buffer =
        some (bs ++ [{ b with repetitions := b.repetitions + 1 }]) := by
      rw [hbuf]
      exact markDuplicate_last_match (mkMessageItem cfg item fr) bs b hkey
    rw [handleLogItem_merge cfg now outcome item s fr
      (bs ++ [{ b with repetitions := b.repetitions + 1 }]) hid hf hdup]
    refine ⟨rfl, ?_⟩
    rw [hbuf]
    simp

/-- Witness for C4: a record repeating the second-to-last entry merges
into it, a record matching nothing older than the last two does not. -/
theorem c4_duplicate_check_witness :
    markDuplicate { c6M1 with time := "t9" } ([c6M2] ++ [c6M1]) =
      some ([c6M2] ++ [{ c6M1 with repetitions := 2 }]) ∧
    markDuplicate c8M3 ([c8M3] ++ [c6M1, c6M2]) = none := by
  constructor
  · exact (c4_duplicate_check c6Cfg 0 wOutcomeOk).2.2.2.1
      { c6M1 with time := "t9" } c6M1 [c6M2] (by decide)
  · exact (c4_duplicate_check c6Cfg 0 wOutcomeOk).2.2.1
      c8M3 c6M1 c6M2 [c8M3] (by decide) (by decide)

/-- Claim C6 is false on the code: the `beforeunload` shutdown signal
flushes synchronously and cancels both timers but does *not* detach
from the ingestion source — a record arriving afterwards is still
ingested into the buffer — while the `endLifecycleRequest` signal
detaches but performs no flush at all (the 2 buffered records stay
unsubmitted). -/
theorem c6_counterexample :
    (handleBeforeUnload c6Cfg 6000 wOutcomeOk c6State).1.channelAttached =
      true ∧
    (deliverLogItem c6Cfg 6500 wOutcomeOk c6Item
      (handleBeforeUnload c6Cfg 6000 wOutcomeOk
        c6State).1).state.buffer.length = 1 ∧
    (handleEndLifecycle c6State).buffer = c6State.buffer ∧
    c6State.buffer.length = 2 := by
  decide

/-- Claim C6 (amended): shutdown is split across two signals.  The
`beforeunload` signal issues, with request policy `BATCH`, exactly one
synchronous delivery attempt containing the 2 unflushed records, clears
the buffer and cancels both timers, but leaves the log channel
attached; a synchronous submission never adds entries to the retry
queue, whatever the outcome and configuration; the
`endLifecycleRequest` signal detaches the log channel, cancels both
timers and removes the `beforeunload` listener, but performs no
flush. -/
theorem c6_amended_shutdown (cfg : Config) (now : Nat)
    (outcome : Request → Bool) (s : EngineState) (m1 m2 : MessageItem)
    (hpolicy : cfg.requestPolicy = "BATCH")
    (hbuf : s.buffer = [m1, m2]) :
    (handleBeforeUnload cfg now outcome s).2 =
      [Request.batch [addRepeatSuffix m1, addRepeatSuffix m2]
        cfg.source] ∧
    (handleBeforeUnload cfg now outcome s).1.buffer = [] ∧
    (handleBeforeUnload cfg now outcome s).1.timeout = none ∧
    (handleBeforeUnload cfg now outcome s).1.retryTimeout = none ∧
    (handleBeforeUnload cfg now outcome s).1.channelAttached =
      s.channelAttached ∧
    (∀ (cfg2 : Config) (n2 : Nat) (o2 : Request → Bool)
      (s2 : EngineState),
      (handleBeforeUnload cfg2 n2 o2 s2).1.resendBuffer =
        s2.resendBuffer) ∧
    (∀ s3 : EngineState, handleEndLifecycle s3 =
      { s3 with
          channelAttached := false
          beforeUnloadAttached := false
          timeout := none
          retryTimeout := none }) := by
  refine ⟨?_, ?_, rfl, rfl, ?_, ?_, fun s3 => rfl⟩
  · show (submit cfg now true outcome s).requests = _
    rw [submit_requests_of_ne_nil cfg now true outcome s
      (by rw [hbuf]; simp)]
    rw [hbuf]
    simp [buildChunks, hpolicy]
  · show (submit cfg now true outcome s).state.buffer = []
    exact submit_buffer_empty cfg now true outcome s
  · show (submit cfg now true outcome s).state.channelAttached = _
    exact submit_channelAttached cfg now true outcome s
  · intro cfg2 n2 o2 s2
    show (submit cfg2 n2 true o2 s2).state.resendBuffer = _
    exact (submit_sync_resend_untouched cfg2 n2 o2 s2).1

/-- Witness for the amended C6 on the concrete shutdown scenario. -/
theorem c6_amended_shutdown_witness :
    (handleBeforeUnload c6Cfg 6000 wOutcomeOk c6State).2 =
      [Request.batch [addRepeatSuffix c6M1, addRepeatSuffix c6M2]
        c6Cfg.source] ∧
    (handleBeforeUnload c6Cfg 6000 wOutcomeOk c6State).1.buffer = [] := by
  have h := c6_amended_shutdown c6Cfg 6000 wOutcomeOk c6State c6M1 c6M2
    (by decide) (by decide)
  exact ⟨h.1, h.2.1⟩

/-- Claim C8: flushing a non-empty buffer suffixes every record having
more than one repetition with `" (repeated Nx)"` (and leaves the others
unchanged), then partitions the buffer by request policy: `BATCH`
yields exactly one request with all records plus the source, any other
policy yields exactly one request per record, each carrying that single
record plus the source. -/
theorem c8_flush_partitioning (cfg : Config) (now : Nat) (sync : Bool)
    (outcome : Request → Bool) (s : EngineState)
    (hne : s.buffer ≠ []) :
    (cfg.requestPolicy = "BATCH" →
      (submit cfg now sync outcome s).requests =
        [Request.batch (s.buffer.map addRepeatSuffix) cfg.source]) ∧
    (cfg.requestPolicy ≠ "BATCH" →
      (submit cfg now sync outcome s).requests =
        s.buffer.map
          (fun m => Request.single (addRepeatSuffix m) cfg.source) ∧
      (submit cfg now sync outcome s).requests.length =
        s.buffer.length) ∧
    (∀ m : MessageItem, 1 < m.repetitions →
      (addRepeatSuffix m).text =
        m.text ++ " (repeated " ++ toString m.repetitions ++ "x)" ∧
      (addRepeatSuffix m).repetitions = m.repetitions) ∧
    (∀ m : MessageItem, ¬ 1 < m.repetitions → addRepeatSuffix m = m) := by
  have hreq := submit_requests_of_ne_nil cfg now sync outcome s hne
  refine ⟨?_, ?_, ?_, ?_⟩
  · intro hp
    rw [hreq]
    simp [buildChunks, hp]
  · intro hp
    constructor
    · rw [hreq]
      simp [buildChunks, hp, List.map_map]
    · rw [hreq]
      simp [buildChunks, hp]
  · intro m hm
    unfold addRepeatSuffix
    rw [if_pos hm]
    exact ⟨rfl, rfl⟩
  · intro m hm
    unfold addRepeatSuffix
    rw [if_neg hm]

/-- Witness for C8: 3 distinct buffered records under `PER_MESSAGE`
yield exactly 3 requests of one message each. -/
theorem c8_flush_partitioning_witness :
    (submit c10Cfg 100 false wOutcomeOk c8State).requests =
      c8State.buffer.map
        (fun m => Request.single (addRepeatSuffix m) c10Cfg.source) ∧
    (submit c10Cfg 100 false wOutcomeOk c8State).requests.length = 3 := by
  have h := (c8_flush_partitioning c10Cfg 100 false wOutcomeOk c8State
    (by decide)).2.1 (by decide)
  refine ⟨h.1, ?_⟩
  rw [h.2]
  decide

theorem formatsOk_mem (items : List LogItem) (x : LogItem)
    (h : formatsOk items = true) (hx : x ∈ items) : fmtOk x = true := by
  rw [formatsOk, List.all_eq_true] at h
  exact h x hx

theorem idsFresh_append_elim (i : Int) (l1 l2 : List LogItem)
    (h : idsFresh i (l1 ++ l2) = true) :
    idsFresh i l1 = true ∧ idsFresh (lastIdOf i l1) l2 = true := by
  induction l1 generalizing i with
  | nil => exact ⟨rfl, h⟩
  | cons item l1x ih =>
    rw [List.cons_append] at h
    obtain ⟨h1, h2⟩ := idsFresh_cons_elim i item (l1x ++ l2) h
    obtain ⟨ha, hb⟩ := ih item.id h2
    constructor
    · unfold idsFresh
      simp [h1, ha]
    · exact hb

/-- Claim C1: with a positive count threshold `T`, ingesting `T`
distinct (pairwise different duplicate keys), fresh-id,
successfully-formatting records into an empty buffer triggers exactly
one flush and leaves the buffer empty immediately afterwards; every
proper prefix of the ingestion triggers no flush and has buffer length
equal to the number of records ingested (hence below `T`); and a single
ingestion step starting below `T` always ends below `T` — the buffer
length never reaches `T` without an immediate flush. -/
theorem c1_count_threshold_flush (cfg : Config) (now : Nat)
    (outcome : Request → Bool) (items : List LogItem) (s : EngineState)
    (hT : 1 ≤ cfg.thresholdMessages)
    (hlen : items.length = cfg.thresholdMessages)
    (hbuf : s.buffer = [])
    (hids : idsFresh s.lastMessageId items = true)
    (hfmt : formatsOk items = true)
    (hkeys : keysDistinct (items.map (keyOf cfg)) = true) :
    (ingestList cfg now outcome items s).flushes = 1 ∧
    (ingestList cfg now outcome items s).state.buffer = [] ∧
    (∀ k, k < items.length →
      (ingestList cfg now outcome (items.take k) s).flushes = 0 ∧
      (ingestList cfg now outcome (items.take k) s).state.buffer.length =
        k) ∧
    (∀ (s2 : EngineState) (item2 : LogItem),
      s2.buffer.length < cfg.thresholdMessages →
      (handleLogItem cfg now outcome item2 s2).state.buffer.length <
        cfg.thresholdMessages) := by
  have hrun : ∀ k, k ≤ items.length → k < cfg.thresholdMessages →
      ingestList cfg now outcome (items.take k) s =
        ⟨{ s with
            buffer := (items.take k).map (toMsg cfg)
            lastMessageId := lastIdOf s.lastMessageId (items.take k) },
          0, [], 0⟩ := by
    intro k hk hkT
    have h := ingest_run_no_flush cfg now outcome (items.take k) [] s
      (by rw [hbuf]; rfl) rfl
      (formatsOk_take items k hfmt)
      (by
        rw [List.nil_append, List.map_take]
        exact keysDistinct_take (items.map (keyOf cfg)) k hkeys)
      (idsFresh_take s.lastMessageId items k hids)
      (by
        rw [List.length_nil, List.length_take]
        omega)
    rw [List.nil_append] at h
    exact h
  have hinv : ∀ (s2 : EngineState) (item2 : LogItem),
      s2.buffer.length < cfg.thresholdMessages →
      (handleLogItem cfg now outcome item2 s2).state.buffer.length <
        cfg.thresholdMessages :=
    fun s2 item2 h2 =>
      handleLogItem_buffer_bound cfg now outcome item2 s2 hT h2
  have hpre : ∀ k, k < items.length →
      (ingestList cfg now outcome (items.take k) s).flushes = 0 ∧
      (ingestList cfg now outcome (items.take k) s).state.buffer.length =
        k := by
    intro k hk
    rw [hrun k (le_of_lt hk) (by omega)]
    constructor
    · rfl
    · simp [List.length_take]
      omega
  have hlenpos : 1 ≤ items.length := by omega
  have htd := List.take_append_drop (items.length - 1) items
  have hdl : (items.drop (items.length - 1)).length = 1 := by
    rw [List.length_drop]
    omega
  obtain ⟨x, hx⟩ : ∃ x, items.drop (items.length - 1) = [x] := by
    cases hd : items.drop (items.length - 1) with
    | nil =>
      rw [hd] at hdl
      simp at hdl
    | cons y ys =>
      rw [hd] at hdl
      simp at hdl
      refine ⟨y, ?_⟩
      rw [hdl]
  have hsplit : items = items.take (items.length - 1) ++ [x] := by
    conv_lhs => rw [← htd]
    rw [hx]
  have hs1 := hrun (items.length - 1) (by omega) (by omega)
  have hids2 : idsFresh s.lastMessageId
      (items.take (items.length - 1) ++ [x]) = true := by
    rw [← hsplit]
    exact hids
  obtain ⟨hidsA, hidsB⟩ := idsFresh_append_elim s.lastMessageId
    (items.take (items.length - 1)) [x] hids2
  have hidx : lastIdOf s.lastMessageId
      (items.take (items.length - 1)) < x.id :=
    (idsFresh_cons_elim _ x [] hidsB).1
  have hxmem : x ∈ items := by
    rw [hsplit]
    exact List.mem_append.2 (Or.inr (List.mem_singleton.2 rfl))
  have hfx : fmtOk x = true := formatsOk_mem items x hfmt hxmem
  obtain ⟨frx, hfrx⟩ := fmtOk_elim x hfx
  have hkeys2 : keysDistinct
      ((items.take (items.length - 1) ++ [x]).map (keyOf cfg)) = true := by
    rw [← hsplit]
    exact hkeys
  have hkmid : ∀ kk ∈ (items.take (items.length - 1)).map (keyOf cfg),
      kk ≠ keyOf cfg x := by
    have hmap : (items.take (items.length - 1) ++ [x]).map (keyOf cfg) =
        (items.take (items.length - 1)).map (keyOf cfg) ++
          keyOf cfg x :: ([] : List (Nat × String × String × String)) := by
      simp
    rw [hmap] at hkeys2
    exact keysDistinct_mid _ _ _ hkeys2
  have hdupx : markDuplicate (mkMessageItem cfg x frx)
      ((items.take (items.length - 1)).map (toMsg cfg)) = none := by
    apply markDuplicate_eq_none
    intro m hm
    obtain ⟨d, hd, hdm⟩ := List.mem_map.1 hm
    have hfd : fmtOk d = true :=
      formatsOk_mem items d hfmt (List.take_subset (items.length - 1)
        items hd)
    rw [← hdm, ← keyOf_eq_dupKey_toMsg cfg d hfd,
      ← keyOf_eq cfg x frx hfrx]
    exact hkmid (keyOf cfg d) (List.mem_map.2 ⟨d, hd, rfl⟩)
  have hlen1 : ((items.take (items.length - 1)).map (toMsg cfg)).length =
      items.length - 1 := by
    simp [List.length_take]
  have hstep := handleLogItem_flush cfg now outcome x
    { s with
        buffer := (items.take (items.length - 1)).map (toMsg cfg)
        lastMessageId := lastIdOf s.lastMessageId
          (items.take (items.length - 1)) }
    frx hidx hfrx hdupx
    (by
      show cfg.thresholdMessages ≤
        ((items.take (items.length - 1)).map (toMsg cfg)).length + 1
      rw [hlen1]
      omega)
  refine ⟨?_, ?_, hpre, hinv⟩
  · rw [hsplit, ingestList_append, hs1]
    simp only [ingestList]
    rw [hstep]
    simp
  · rw [hsplit, ingestList_append, hs1]
    simp only [ingestList]
    rw [hstep]
    exact submit_buffer_empty cfg now false outcome _

/-- Witness for C1: two distinct records against count threshold 2. -/
theorem c1_count_threshold_flush_witness :
    (ingestList wCfg2 100 wOutcomeOk [wItem1, wItem2] wState0).flushes =
      1 ∧
    (ingestList wCfg2 100 wOutcomeOk [wItem1, wItem2]
      wState0).state.buffer = [] := by
  have h := c1_count_threshold_flush wCfg2 100 wOutcomeOk
    [wItem1, wItem2] wState0 (by decide) (by decide) (by decide)
    (by decide) (by decide) (by decide)
  exact ⟨h.1, h.2.1⟩
